import Mathlib

/-!
Verification of the monday.py API interface (a client-side synchronization
layer for a remote collaborative-board service).

This file is a shallow embedding of the parts of the source that the
verified properties talk about: the request/retry protocol
(WorkSpace.post_request and WorkSpace.handle_response_errors), the
workspace-id lookup (WorkSpace.get_ws_id), the entity model
(Board / Group / Column / Item and their hydration from a detail payload),
the polling dispatcher (InputBoard.manager, one poll cycle), the handler
runner (Analyzer.manager), and the column-values serializer of the
remote-creation path of Item.

Modelling conventions:
  - side effects (HTTP posts, sleeps, errors-file appends, prints, thread
    spawns, handler invocations) are recorded as an explicit event list, in
    the order the source performs them;
  - the transport is modelled by the list of JSON responses it returns, in
    order, plus a fuel bound for the unbounded retry recursion;
  - Python runtime errors (TypeError, KeyError, IndexError, AttributeError)
    are modelled by an explicit error type in an Except result;
  - Python dicts are modelled as association lists with unique keys kept in
    insertion order, assignment overwriting in place.
-/

/-- Python runtime errors that the embedded code can raise. -/
inductive PyErr where
  | typeError
  | keyError
  | indexError
  | attributeError
deriving DecidableEq, Repr

/-- Observable side effects of the embedded code, in order of occurrence. -/
inductive Event where
  | post (query : String)
  | sleep (seconds : Nat)
  | fileAppend (path : String) (content : String)
  | printMsg (msg : String)
  | spawn (groupTitle : String) (item_id : String) (item_name : String)
  | handlerCall (inputs : List (String × String))
deriving DecidableEq, Repr

/-- JSON values, as produced by json.loads on a raw API response. -/
inductive JVal where
  | null
  | bool (b : Bool)
  | num (n : Int)
  | str (s : String)
  | arr (elems : List JVal)
  | obj (fields : List (String × JVal))

/-- First-match association-list lookup: Python dict subscript
(keys are unique in every dict the source builds). -/
def dlookup {α : Type} : List (String × α) → String → Option α
  | [], _ => none
  | p :: rest, k => if p.1 = k then some p.2 else dlookup rest k

/-- If the first list is a prefix of the second, return the rest of the
second list. -/
def dropPrefixQ : List Char → List Char → Option (List Char)
  | [], s => some s
  | _ :: _, [] => none
  | a :: as, b :: bs => if a = b then dropPrefixQ as bs else none

/-- Substring test on character lists (Python `needle in hay` for
strings). -/
def listContainsSub (needle : List Char) : List Char → Bool
  | [] => (dropPrefixQ needle []).isSome
  | c :: rest => (dropPrefixQ needle (c :: rest)).isSome || listContainsSub needle rest

/-- Python `needle in hay` on strings. -/
def strContains (hay needle : String) : Bool :=
  listContainsSub needle.data hay.data

/-- Worker for pySplit: scan left to right, cutting at each non-overlapping
occurrence of the separator; fuel bounds the recursion (one unit per
consumed character suffices). -/
def pySplitAux (sep : List Char) : Nat → List Char → List Char → List (List Char)
  | 0, s, acc => [acc.reverse ++ s]
  | _ + 1, [], acc => [acc.reverse]
  | fuel + 1, c :: rest, acc =>
    match dropPrefixQ sep (c :: rest) with
    | some rem => acc.reverse :: pySplitAux sep fuel rem []
    | none => pySplitAux sep fuel rest (c :: acc)

/-- Python str.split with an explicit (non-empty) separator. -/
def pySplit (s sep : String) : List String :=
  (pySplitAux sep.data (s.data.length + 1) s.data []).map (fun l => String.mk l)

/-- The Python `in` operator with a string needle: substring test on
strings, element membership on lists, key membership on dicts, TypeError on
the remaining JSON values. -/
def pyIn (needle : String) (container : JVal) : Except PyErr Bool :=
  match container with
  | .str s => .ok (strContains s needle)
  | .arr xs => .ok (xs.any (fun j => match j with | .str t => t == needle | _ => false))
  | .obj fields => .ok (fields.any (fun p => p.1 == needle))
  | _ => .error .typeError

/-- Python subscript with a string key: dict lookup (KeyError when the key
is absent), TypeError on every non-dict value. -/
def pySub (container : JVal) (key : String) : Except PyErr JVal :=
  match container with
  | .obj fields =>
    match dlookup fields key with
    | some v => .ok v
    | none => .error .keyError
  | _ => .error .typeError

/-- Python subscript with a non-negative integer index: list indexing
(IndexError when out of range), TypeError on non-lists. -/
def pyIndex (container : JVal) (i : Nat) : Except PyErr JVal :=
  match container with
  | .arr xs =>
    match xs.get? i with
    | some v => .ok v
    | none => .error .indexError
  | _ => .error .typeError

/-- The value handed to time.sleep by the rate-limit branch: either an int
(the normal case) or a string (when the character right after the marker is
not a digit, the unconverted character itself is passed on). -/
inductive SleepArg where
  | int (n : Nat)
  | str (s : String)
deriving DecidableEq, Repr

/-- Rate-limit branch of WorkSpace.handle_response_errors, lines 168-182 of
monday.py: seconds_to_rest starts at 5; when the message contains
'reset in ', seconds_to_rest becomes the first character after the first
occurrence (IndexError when nothing follows), converted to the digit value
plus 1 only when that character is a digit. -/
def rateLimitSleepArg (msg : String) : Except PyErr SleepArg :=
  if strContains msg "reset in " then
    match pySplit msg "reset in " with
    | _ :: second :: _ =>
      match second.data with
      | [] => .error .indexError
      | c :: _ =>
        if c.isDigit then .ok (.int (c.toNat - 48 + 1)) else .ok (.str (String.mk [c]))
    | _ => .ok (.int 5)
  else .ok (.int 5)

/-- Outcome of one iteration of the error loop in
WorkSpace.handle_response_errors: continue with the next error, return
False immediately (rate-limit path), or raise. -/
inductive StepRes where
  | cont (evs : List Event)
  | stop (evs : List Event)
  | crash (e : PyErr)

/-- One iteration of the error loop of WorkSpace.handle_response_errors
(lines 157-195 of monday.py): skip errors without a 'message' entry; on a
rate-limit message sleep and return False; otherwise append the message
verbatim to errors.txt and continue. Passing a non-int to sleep or writing
a non-string raises TypeError; str.split on a non-string raises
AttributeError. -/
def handleOneError (error : JVal) : StepRes :=
  match pyIn "message" error with
  | .error e => .crash e
  | .ok false => .cont []
  | .ok true =>
    match pySub error "message" with
    | .error e => .crash e
    | .ok msgVal =>
      match pyIn "Complexity budget exhausted" msgVal with
      | .error e => .crash e
      | .ok true =>
        match msgVal with
        | .str msg =>
          match rateLimitSleepArg msg with
          | .error e => .crash e
          | .ok (.int n) => .stop [.sleep n]
          | .ok (.str _) => .crash .typeError
        | other =>
          match pyIn "reset in " other with
          | .error e => .crash e
          | .ok false => .stop [.sleep 5]
          | .ok true => .crash .attributeError
      | .ok false =>
        match msgVal with
        | .str msg => .cont [.fileAppend "errors.txt" msg]
        | _ => .crash .typeError

/-- The error loop of WorkSpace.handle_response_errors; after the loop the
function returns False (re-submission required). Events logged by earlier
iterations are kept even when a later iteration raises. -/
def handleLoop : List JVal → List Event → List Event × Except PyErr Bool
  | [], acc => (acc, .ok false)
  | e :: rest, acc =>
    match handleOneError e with
    | .crash err => (acc, .error err)
    | .stop evs => (acc ++ evs, .ok false)
    | .cont evs => handleLoop rest (acc ++ evs)

/-- Python iteration over the value bound to 'errors': lists iterate their
elements, strings their characters, dicts their keys; the remaining values
raise TypeError. -/
def iterTargets : JVal → Except PyErr (List JVal)
  | .arr xs => .ok xs
  | .str s => .ok (s.data.map (fun c => JVal.str (String.mk [c])))
  | .obj fields => .ok (fields.map (fun p => JVal.str p.1))
  | _ => .error .typeError

/-- WorkSpace.handle_response_errors (lines 142-201 of monday.py): True
means no re-submission required. -/
def handle_response_errors (response : JVal) : List Event × Except PyErr Bool :=
  match pyIn "errors" response with
  | .error e => ([], .error e)
  | .ok false => ([], .ok true)
  | .ok true =>
    match pySub response "errors" with
    | .error e => ([], .error e)
    | .ok errs =>
      match iterTargets errs with
      | .error e => ([], .error e)
      | .ok l => handleLoop l []

/-- The `try: return response['data'] except: return None` tail of
WorkSpace.post_request (print_api_protocol is False, so the subscript is
the only statement that can raise inside the try). -/
def tryData (response : JVal) : Option JVal :=
  match pySub response "data" with
  | .ok v => some v
  | .error _ => none

/-- Result of WorkSpace.post_request: a returned value (the data payload,
or None when it is missing), a Python error, or fuel exhaustion of the
unbounded retry recursion / of the modelled response stream. -/
inductive PResult where
  | ok (data : Option JVal)
  | crash (e : PyErr)
  | outOfFuel

/-- WorkSpace.post_request (lines 102-140 of monday.py): send the query
(consuming the next transport response), run handle_response_errors, and on
False re-submit the identical query recursively; on True return the data
payload, or None when it is absent. -/
def post_request : Nat → List JVal → String → List Event × PResult
  | 0, _, _ => ([], .outOfFuel)
  | _ + 1, [], query => ([.post query], .outOfFuel)
  | fuel + 1, r :: rs, query =>
    match handle_response_errors r with
    | (evs, .error e) => (.post query :: evs, .crash e)
    | (evs, .ok false) =>
      match post_request fuel rs query with
      | (evs2, res) => (.post query :: (evs ++ evs2), res)
    | (evs, .ok true) => (.post query :: evs, .ok (tryData r))

/-- The message printed by WorkSpace.get_ws_id on an empty workspace
(line 210 of monday.py). -/
def wsEmptyMsg : String :=
  "Please create at least one board, can\x27t locate an empty workspace."

/-- The query built by WorkSpace.get_ws_id (line 215 of monday.py). -/
def wsIdQuery (board_id : String) : String :=
  "\x7b boards (ids:" ++ board_id ++ ")\x7bid name workspace \x7bid name\x7d \x7d\x7d"

/-- WorkSpace.get_ws_id (lines 203-216 of monday.py). The workspace's
boards dict is modelled as an association list from board name to board id;
with no boards the function prints a report and returns None without any
remote request; otherwise it posts a query built from the first board's id
and drills into the response (each subscript can raise, and subscripting
the None returned by a data-less post_request raises TypeError). -/
def get_ws_id (boards : List (String × String)) (fuel : Nat) (responses : List JVal) :
    List Event × PResult :=
  match boards with
  | [] => ([.printMsg wsEmptyMsg], .ok none)
  | (_, bid) :: _ =>
    match post_request fuel responses (wsIdQuery bid) with
    | (evs, PResult.ok none) => (evs, .crash .typeError)
    | (evs, PResult.ok (some d)) =>
      match pySub d "boards" with
      | .error e => (evs, .crash e)
      | .ok bs =>
        match pyIndex bs 0 with
        | .error e => (evs, .crash e)
        | .ok b0 =>
          match pySub b0 "workspace" with
          | .error e => (evs, .crash e)
          | .ok w =>
            match pySub w "id" with
            | .error e => (evs, .crash e)
            | .ok v => (evs, .ok (some v))
    | (evs, other) => (evs, other)

example :
    rateLimitSleepArg "Complexity budget exhausted in seconds_left. reset in 9 seconds" =
      .ok (.int 10) := rfl

example :
    rateLimitSleepArg "Complexity budget exhausted" = .ok (.int 5) := rfl

example :
    rateLimitSleepArg "Complexity budget exhausted - reset in a few seconds" =
      .ok (.str "a") := rfl

/-- Python dict assignment d[k] = v: overwrite in place when the key
exists, append otherwise (all dicts the source builds start empty, so keys
stay unique and overwriting the first hit is exact). -/
def dinsert {α : Type} : List (String × α) → String → α → List (String × α)
  | [], k, v => [(k, v)]
  | p :: rest, k, v => if p.1 = k then (k, v) :: rest else p :: dinsert rest k v

/-- The keys of a modelled dict, in insertion order. -/
def keys {α : Type} (m : List (String × α)) : List String :=
  m.map Prod.fst

theorem dlookup_dinsert_self {α : Type} (m : List (String × α)) (k : String) (v : α) :
    dlookup (dinsert m k v) k = some v := by
  induction m with
  | nil => simp [dinsert, dlookup]
  | cons p rest ih =>
    by_cases h : p.1 = k
    · simp [dinsert, h, dlookup]
    · simp [dinsert, h, dlookup, ih]

theorem dlookup_dinsert_ne {α : Type} (m : List (String × α)) (k k' : String) (v : α)
    (h : k' ≠ k) : dlookup (dinsert m k v) k' = dlookup m k' := by
  induction m with
  | nil => simp [dinsert, dlookup, Ne.symm h]
  | cons p rest ih =>
    by_cases hp : p.1 = k
    · have hk' : ¬ (k = k') := fun e => h e.symm
      have hp' : ¬ (p.1 = k') := fun e => h (by rw [← e, hp])
      have e1 : dinsert (p :: rest) k v = (k, v) :: rest := by
        simp [dinsert, hp]
      rw [e1]
      simp only [dlookup]
      rw [if_neg hk', if_neg hp']
    · simp [dinsert, hp, dlookup, ih]

theorem mem_keys_dinsert {α : Type} (m : List (String × α)) (k a : String) (v : α) :
    a ∈ keys (dinsert m k v) ↔ a = k ∨ a ∈ keys m := by
  induction m with
  | nil => simp [dinsert, keys]
  | cons p rest ih =>
    by_cases h : p.1 = k
    · simp only [dinsert, h, eq_self_iff_true, if_true, keys, List.map_cons, List.mem_cons]
      tauto
    · simp only [dinsert, h, if_false, keys, List.map_cons, List.mem_cons] at *
      tauto

theorem keys_dinsert_of_mem {α : Type} (m : List (String × α)) (k : String) (v : α)
    (h : k ∈ keys m) : keys (dinsert m k v) = keys m := by
  induction m with
  | nil => simp [keys] at h
  | cons p rest ih =>
    by_cases hp : p.1 = k
    · simp [dinsert, hp, keys]
    · have h' : k ∈ keys rest := by
        simp [keys] at h
        rcases h with h | h
        · exact absurd h.symm hp
        · simpa [keys] using h
      simp only [dinsert, hp, if_false, keys, List.map_cons]
      exact congrArg (List.cons p.1) (ih h')

theorem nodup_keys_dinsert {α : Type} (m : List (String × α)) (k : String) (v : α)
    (h : (keys m).Nodup) : (keys (dinsert m k v)).Nodup := by
  induction m with
  | nil => simp [dinsert, keys]
  | cons p rest ih =>
    simp only [keys, List.map_cons, List.nodup_cons] at h
    by_cases hp : p.1 = k
    · simp only [dinsert, hp, if_true, keys, List.map_cons, List.nodup_cons]
      exact ⟨hp ▸ h.1, h.2⟩
    · simp only [dinsert, hp, if_false, keys, List.map_cons, List.nodup_cons]
      constructor
      · intro hmem
        rcases (mem_keys_dinsert rest k p.1 v).mp hmem with h1 | h1
        · exact hp h1
        · exact h.1 h1
      · exact ih h.2

theorem mem_of_mem_dinsert {α : Type} (m : List (String × α)) (k : String) (v : α)
    (p : String × α) (h : p ∈ dinsert m k v) : p = (k, v) ∨ p ∈ m := by
  induction m with
  | nil =>
    simp only [dinsert, List.mem_singleton] at h
    exact Or.inl h
  | cons q rest ih =>
    by_cases hq : q.1 = k
    · simp only [dinsert, hq, if_true, List.mem_cons] at h
      rcases h with h | h
      · exact Or.inl h
      · exact Or.inr (List.mem_cons_of_mem _ h)
    · simp only [dinsert, hq, if_false, List.mem_cons] at h
      rcases h with h | h
      · exact Or.inr (by rw [h]; exact List.mem_cons_self q rest)
      · rcases ih h with h1 | h1
        · exact Or.inl h1
        · exact Or.inr (List.mem_cons_of_mem _ h1)

theorem mem_of_dlookup {α : Type} (m : List (String × α)) (k : String) (v : α)
    (h : dlookup m k = some v) : (k, v) ∈ m := by
  induction m with
  | nil => simp [dlookup] at h
  | cons p rest ih =>
    obtain ⟨a, b⟩ := p
    by_cases hp : a = k
    · subst hp
      simp [dlookup] at h
      subst h
      exact List.mem_cons_self _ _
    · simp only [dlookup, hp, if_false] at h
      exact List.mem_cons_of_mem _ (ih h)

theorem dlookup_isSome_of_mem_keys {α : Type} (m : List (String × α)) (a : String)
    (h : a ∈ keys m) : ∃ v, dlookup m a = some v := by
  induction m with
  | nil => simp [keys] at h
  | cons p rest ih =>
    by_cases hp : p.1 = a
    · exact ⟨p.2, by simp [dlookup, hp]⟩
    · have h' : a ∈ keys rest := by
        simp [keys] at h
        rcases h with h | h
        · exact absurd h.symm hp
        · simpa [keys] using h
      rcases ih h' with ⟨v, hv⟩
      exact ⟨v, by simp [dlookup, hp, hv]⟩

/-- A column entry of a board-detail response (id, title, type,
description). -/
structure JColumn where
  id : String
  title : String
  ctype : String
  descr : String
deriving DecidableEq, Repr

/-- A group entry of a board-detail response (id, title). -/
structure JGroup where
  id : String
  title : String
deriving DecidableEq, Repr

/-- An item entry of a board-detail response: id, name, the title of its
group (the source reads item['group']['title']), and its column-value
snapshot as (column id, text) pairs. -/
structure JItem where
  id : String
  name : String
  groupTitle : String
  columnValues : List (String × String)
deriving DecidableEq, Repr

/-- The Python value stored in Item.group: either an actual Group object
(identified here by its title) or a plain string. Board.set_items passes
the group-title string; direct construction passes the Group instance. -/
inductive GroupArg where
  | inst (title : String)
  | strv (s : String)
deriving DecidableEq, Repr

/-- Column (monday.py lines 639-672), hydration path: the locally stored
attributes. -/
structure ColumnM where
  title : String
  description : String
  column_type : String
  column_id : String
deriving DecidableEq, Repr

/-- Item (monday.py lines 675-742), hydration path: group as passed by the
caller, name, remote id, and the column-values dict built by
Item.set_columns. -/
structure ItemM where
  group : GroupArg
  name : String
  item_id : String
  columns_values : List (String × String)
deriving DecidableEq, Repr

/-- Group (monday.py lines 556-636), hydration path: title, remote id and
the name-keyed items dict. -/
structure GroupM where
  title : String
  group_id : String
  items : List (String × ItemM)
deriving DecidableEq, Repr

/-- The mappings of a Board (monday.py lines 264-412): title-keyed columns
and groups. -/
structure BoardM where
  columns : List (String × ColumnM)
  groups : List (String × GroupM)
deriving DecidableEq, Repr

/-- Item.set_columns (lines 733-742): store each (id, text) pair in the
columns_values dict. -/
def item_set_columns (cvs : List (String × String)) : List (String × String) :=
  cvs.foldl (fun m cv => dinsert m cv.1 cv.2) []

/-- The Item built by the hydration branch of Item.__init__ (lines
680-705): the group argument is stored exactly as passed. -/
def hydratedItem (group : GroupArg) (name item_id : String)
    (cvs : List (String × String)) : ItemM :=
  { group := group, name := name, item_id := item_id,
    columns_values := item_set_columns cvs }

/-- The Column built from one json column entry (Board.set_columns body,
lines 365-369). -/
def mkColumn (c : JColumn) : ColumnM :=
  { title := c.title, description := c.descr, column_type := c.ctype, column_id := c.id }

/-- The Group built from one json group entry (Board.set_groups body,
lines 377-380): its items dict starts empty. -/
def mkGroup (g : JGroup) : GroupM :=
  { title := g.title, group_id := g.id, items := [] }

/-- Board.set_columns (lines 359-369): title-keyed insertion of each json
column, in order. -/
def set_columns : BoardM → List JColumn → BoardM
  | b, [] => b
  | b, c :: rest => set_columns { b with columns := dinsert b.columns c.title (mkColumn c) } rest

/-- Board.set_groups (lines 371-380): title-keyed insertion of each json
group, in order. -/
def set_groups : BoardM → List JGroup → BoardM
  | b, [] => b
  | b, g :: rest => set_groups { b with groups := dinsert b.groups g.title (mkGroup g) } rest

/-- Board.set_items (lines 382-398): for each json item, build an Item
whose group field is the group TITLE (the source passes
group=item_group_title), then add it to self.groups[title].items
(KeyError when that group is absent). -/
def set_items : BoardM → List JItem → Except PyErr BoardM
  | b, [] => .ok b
  | b, it :: rest =>
    match dlookup b.groups it.groupTitle with
    | none => .error .keyError
    | some g =>
      let g' : GroupM := { g with items := dinsert g.items it.name (hydratedItem (GroupArg.strv it.groupTitle) it.name it.id it.columnValues) }
      set_items { b with groups := dinsert b.groups it.groupTitle g' } rest

/-- Board.add_column (lines 400-405). -/
def add_column (b : BoardM) (c : ColumnM) : BoardM :=
  { b with columns := dinsert b.columns c.title c }

/-- A Board before any mapping is populated (Board.__init__ lines
280-284). -/
def emptyBoard : BoardM := ⟨[], []⟩

/-- The hydration branch of Board.__init__ (lines 287-299): columns first,
then groups, then items. -/
def hydrateBoard (cols : List JColumn) (groups : List JGroup) (items : List JItem) :
    Except PyErr BoardM :=
  set_items (set_groups (set_columns emptyBoard cols) groups) items

/-- The board stores, inside the group keyed gt, an item keyed n. -/
def hasItem (b : BoardM) (gt n : String) : Prop :=
  ∃ g, dlookup b.groups gt = some g ∧ n ∈ keys g.items

/-- The groups list stores, under key gt, a group whose items dict has key
n. (hasItem restricted to a groups list.) -/
def hasItemG (m : List (String × GroupM)) (gt n : String) : Prop :=
  ∃ g, dlookup m gt = some g ∧ n ∈ keys g.items

theorem set_columns_groups (b : BoardM) (cs : List JColumn) :
    (set_columns b cs).groups = b.groups := by
  induction cs generalizing b with
  | nil => rfl
  | cons c rest ih =>
    simp only [set_columns]
    rw [ih]

theorem mem_keys_set_columns (b : BoardM) (cs : List JColumn) (a : String) :
    a ∈ keys (set_columns b cs).columns ↔ a ∈ keys b.columns ∨ a ∈ cs.map JColumn.title := by
  induction cs generalizing b with
  | nil => simp [set_columns]
  | cons c rest ih =>
    simp only [set_columns]
    rw [ih]
    rw [mem_keys_dinsert]
    simp only [List.map_cons, List.mem_cons]
    tauto

theorem set_groups_columns (b : BoardM) (gs : List JGroup) :
    (set_groups b gs).columns = b.columns := by
  induction gs generalizing b with
  | nil => rfl
  | cons g rest ih =>
    simp only [set_groups]
    rw [ih]

theorem mem_keys_set_groups (b : BoardM) (gs : List JGroup) (a : String) :
    a ∈ keys (set_groups b gs).groups ↔ a ∈ keys b.groups ∨ a ∈ gs.map JGroup.title := by
  induction gs generalizing b with
  | nil => simp [set_groups]
  | cons g rest ih =>
    simp only [set_groups]
    rw [ih]
    rw [mem_keys_dinsert]
    simp only [List.map_cons, List.mem_cons]
    tauto

theorem set_groups_items_empty (b : BoardM) (gs : List JGroup)
    (h : ∀ p ∈ b.groups, p.2.items = ([] : List (String × ItemM))) :
    ∀ p ∈ (set_groups b gs).groups, p.2.items = [] := by
  induction gs generalizing b with
  | nil => exact h
  | cons g rest ih =>
    simp only [set_groups]
    apply ih
    intro p hp
    rcases mem_of_mem_dinsert _ _ _ _ hp with h1 | h1
    · rw [h1]
      rfl
    · exact h p h1

theorem not_hasItemG_of_items_empty (m : List (String × GroupM))
    (h : ∀ p ∈ m, p.2.items = ([] : List (String × ItemM))) (gt n : String) :
    ¬ hasItemG m gt n := by
  rintro ⟨g, hg, hn⟩
  have := h (gt, g) (mem_of_dlookup _ _ _ hg)
  simp only at this
  rw [this] at hn
  simp [keys] at hn

theorem hasItemG_step (m : List (String × GroupM)) (g : GroupM) (gt0 nm : String)
    (itm : ItemM) (hg : dlookup m gt0 = some g) (gt n : String) :
    hasItemG (dinsert m gt0 ({ g with items := dinsert g.items nm itm })) gt n ↔
      (gt0 = gt ∧ nm = n) ∨ hasItemG m gt n := by
  unfold hasItemG
  by_cases hgt : gt = gt0
  · subst hgt
    constructor
    · rintro ⟨g1, hg1, hn⟩
      rw [dlookup_dinsert_self] at hg1
      injection hg1 with hg1
      subst hg1
      rcases (mem_keys_dinsert _ _ _ _).mp hn with h1 | h1
      · exact Or.inl ⟨rfl, h1.symm⟩
      · exact Or.inr ⟨g, hg, h1⟩
    · rintro (⟨-, rfl⟩ | ⟨g2, hg2, hn⟩)
      · exact ⟨_, dlookup_dinsert_self _ _ _, (mem_keys_dinsert _ _ _ _).mpr (Or.inl rfl)⟩
      · rw [hg] at hg2
        injection hg2 with hg2
        subst hg2
        exact ⟨_, dlookup_dinsert_self _ _ _, (mem_keys_dinsert _ _ _ _).mpr (Or.inr hn)⟩
  · rw [dlookup_dinsert_ne _ _ _ _ hgt]
    constructor
    · rintro ⟨g1, hg1, hn⟩
      exact Or.inr ⟨g1, hg1, hn⟩
    · rintro (⟨h1, -⟩ | ⟨g1, hg1, hn⟩)
      · exact absurd h1.symm hgt
      · exact ⟨g1, hg1, hn⟩

theorem set_items_spec (items : List JItem) : ∀ (b : BoardM),
    (∀ it ∈ items, it.groupTitle ∈ keys b.groups) →
    ∃ b', set_items b items = Except.ok b' ∧
      b'.columns = b.columns ∧
      keys b'.groups = keys b.groups ∧
      (∀ gt n, hasItemG b'.groups gt n ↔
        ((∃ it ∈ items, it.groupTitle = gt ∧ it.name = n) ∨ hasItemG b.groups gt n)) := by
  induction items with
  | nil =>
    intro b _
    exact ⟨b, rfl, rfl, rfl, by simp⟩
  | cons it rest ih =>
    intro b h
    have hmem : it.groupTitle ∈ keys b.groups := h it (List.mem_cons_self _ _)
    obtain ⟨g, hg⟩ := dlookup_isSome_of_mem_keys _ _ hmem
    set itm := hydratedItem (GroupArg.strv it.groupTitle) it.name it.id it.columnValues with hitm
    set b1 : BoardM := { b with groups := dinsert b.groups it.groupTitle ({ g with items := dinsert g.items it.name itm }) } with hb1
    have hb1g : b1.groups = dinsert b.groups it.groupTitle ({ g with items := dinsert g.items it.name itm }) := rfl
    have hkeys1 : keys b1.groups = keys b.groups := keys_dinsert_of_mem _ _ _ hmem
    have hrest : ∀ x ∈ rest, x.groupTitle ∈ keys b1.groups := by
      intro x hx
      rw [hkeys1]
      exact h x (List.mem_cons_of_mem _ hx)
    obtain ⟨b', hb', hcols, hkeys, hiff⟩ := ih b1 hrest
    refine ⟨b', ?_, ?_, ?_, ?_⟩
    · simp only [set_items, hg]
      exact hb'
    · exact hcols
    · rw [hkeys, hkeys1]
    · intro gt n
      rw [hiff gt n]
      rw [hb1g, hasItemG_step b.groups g it.groupTitle it.name itm hg gt n]
      simp only [List.mem_cons, exists_eq_or_imp]
      constructor
      · rintro (hx | hy | hz)
        · exact Or.inl (Or.inr hx)
        · exact Or.inl (Or.inl hy)
        · exact Or.inr hz
      · rintro ((hy | hx) | hz)
        · exact Or.inr (Or.inl hy)
        · exact Or.inl hx
        · exact Or.inr (Or.inr hz)

/-- One entry of the items json fetched by InputBoard.manager (line 454):
the item id, name, group title and the 'value' field of each of its
column_values (null or a string in the JSON snapshot). -/
structure PollItem where
  id : String
  name : String
  groupTitle : String
  columnValues : List (Option String)
deriving DecidableEq, Repr

/-- Python truthiness test `not value` for a column value that is either
null (None) or a string: None and the empty string are falsy. -/
def pyFalsy : Option String → Bool
  | none => true
  | some s => s == ""

/-- The detection rule of InputBoard.manager (line 463): an item is new
when its first column value is falsy; an item with no column values at all
makes the subscript [0] raise instead (handled separately). -/
def unprocessed (it : PollItem) : Bool :=
  match it.columnValues with
  | [] => false
  | v :: _ => pyFalsy v

/-- The in-progress (index 0) status mutation built by InputBoard.manager
(lines 466-470 of monday.py). -/
def inProgressQuery (board_id item_id status_column_id : String) : String :=
  "mutation \x7b change_column_value (board_id: " ++ board_id ++ ", item_id: " ++ item_id ++
    ", column_id: \"" ++ status_column_id ++ "\", value: \"\x7b\\\"index\\\" : 0\x7d\") \x7b id \x7d \x7d"

/-- The body of one poll cycle of InputBoard.manager (lines 460-478 of
monday.py), iterating the fetched items: for each item whose first column
value is falsy, post the in-progress mutation, then look up the handler in
execution_dict (KeyError when the group has no handler; the mutation has
already been sent) and spawn the Analyzer; truthy items are skipped. The
remote mutation is modelled as its post event (responses assumed
error-free), and handlers are identified by their registry entry. -/
def pollCycle (board_id status_column_id : String) (execution_dict : List (String × String)) :
    List PollItem → List Event × Except PyErr Unit
  | [] => ([], .ok ())
  | it :: rest =>
    match it.columnValues with
    | [] => ([], .error .indexError)
    | v :: _ =>
      if pyFalsy v then
        match dlookup execution_dict it.groupTitle with
        | none => ([.post (inProgressQuery board_id it.id status_column_id)], .error .keyError)
        | some _ =>
          match pollCycle board_id status_column_id execution_dict rest with
          | (evs, res) =>
            (.post (inProgressQuery board_id it.id status_column_id) ::
              .spawn it.groupTitle it.id it.name :: evs, res)
      else pollCycle board_id status_column_id execution_dict rest

/-- The data an Analyzer is constructed with (lines 526-539 of monday.py):
the board and status-column ids reachable through input_board, the item id,
and the inputs dict passed to the handler. -/
structure AnalyzerM where
  board_id : String
  item_id : String
  status_column_id : String
  inputs : List (String × String)
deriving DecidableEq, Repr

/-- The done (index 1) status mutation built by Analyzer.manager (lines
550-553 of monday.py). -/
def doneQuery (board_id item_id status_column_id : String) : String :=
  "mutation \x7b change_column_value (board_id: " ++ board_id ++ ", item_id: " ++ item_id ++
    ", column_id: \"" ++ status_column_id ++ "\", value: \"\x7b\\\"index\\\" : 1\x7d\") \x7b id \x7d \x7d"

/-- Analyzer.manager (lines 541-553 of monday.py): execute the handler
(self.function(**self.inputs)), then post the done mutation. The handler
body is opaque user code; its outcome (normal return or raise) is a
parameter, and an uncaught raise aborts the unit before the mutation. -/
def analyzer_manager (a : AnalyzerM) (handlerOutcome : Except PyErr Unit) :
    List Event × Except PyErr Unit :=
  match handlerOutcome with
  | .error e => ([.handlerCall a.inputs], .error e)
  | .ok _ => ([.handlerCall a.inputs, .post (doneQuery a.board_id a.item_id a.status_column_id)], .ok ())

/-- Python values that can appear in the columns_values pairs of the
remote-creation path of Item.__init__. -/
inductive PyVal where
  | str (s : String)
  | int (n : Int)
  | boolean (b : Bool)
  | pynone
  | dict (fields : List (String × PyVal))
  | plist (xs : List PyVal)

/-- JSON string escaping of one character (the cases relevant to ASCII
payloads). -/
def jsonEscapeChar (c : Char) : List Char :=
  if c = '"' then ['\\', '"']
  else if c = '\\' then ['\\', '\\']
  else if c = '\n' then ['\\', 'n']
  else if c = '\t' then ['\\', 't']
  else if c = '\r' then ['\\', 'r']
  else [c]

/-- JSON string escaping (the body of a quoted JSON string). -/
def jsonEscape (s : String) : String :=
  String.mk (s.data.flatMap jsonEscapeChar)

mutual

/-- Modelled from Python's json.dumps with default separators (', ' and
': '), for ASCII payloads. -/
def jsonDumps : PyVal → String
  | .str s => "\"" ++ jsonEscape s ++ "\""
  | .int n => toString n
  | .boolean true => "true"
  | .boolean false => "false"
  | .pynone => "null"
  | .dict fields => "\x7b" ++ jsonDumpsFields fields ++ "\x7d"
  | .plist xs => "[" ++ jsonDumpsElems xs ++ "]"

/-- json.dumps of the key-value pairs of a dict. -/
def jsonDumpsFields : List (String × PyVal) → String
  | [] => ""
  | [p] => "\"" ++ jsonEscape p.1 ++ "\": " ++ jsonDumps p.2
  | p :: q :: rest => "\"" ++ jsonEscape p.1 ++ "\": " ++ jsonDumps p.2 ++ ", " ++ jsonDumpsFields (q :: rest)

/-- json.dumps of the elements of a list. -/
def jsonDumpsElems : List PyVal → String
  | [] => ""
  | [x] => jsonDumps x
  | x :: y :: rest => jsonDumps x ++ ", " ++ jsonDumpsElems (y :: rest)

end

/-- Does the loop of lines 712-719 of monday.py serialize this value at
all? Only str and dict values have a branch; everything else is silently
skipped. -/
def isStrOrDict : PyVal → Bool
  | .str _ => true
  | .dict _ => true
  | _ => false

/-- The loop of lines 712-719 of monday.py, building columns_values_json:
for a str value append \"<column id>\": \"<value>\", ; for a dict value
append \"<column id>\": <json.dumps(value)>, ; other values are skipped.
The column id comes from self.group.board.columns[column_title]
(KeyError when the title is not a column of the board). -/
def item_cv_loop (columns : List (String × String)) :
    List (String × PyVal) → String → Except PyErr String
  | [], acc => .ok acc
  | (t, v) :: rest, acc =>
    match v with
    | .str s =>
      match dlookup columns t with
      | none => .error .keyError
      | some cid =>
        item_cv_loop columns rest (acc ++ "\\\"" ++ cid ++ "\\\": \\\"" ++ s ++ "\\\"" ++ ", ")
    | .dict d =>
      match dlookup columns t with
      | none => .error .keyError
      | some cid =>
        item_cv_loop columns rest (acc ++ "\\\"" ++ cid ++ "\\\": " ++ jsonDumps (.dict d) ++ ", ")
    | _ => item_cv_loop columns rest acc

/-- The serialized column_values payload of the create-item mutation
(lines 710-725 of monday.py): start from the opening brace, run the loop,
strip the trailing two characters ', ' when anything was appended
(len > 1), then close the brace. -/
def item_columns_values_json (columns : List (String × String))
    (columns_values : List (String × PyVal)) : Except PyErr String :=
  match item_cv_loop columns columns_values "\x7b" with
  | .error e => .error e
  | .ok s =>
    .ok ((if s.data.length > 1 then String.mk s.data.dropLast.dropLast else s) ++ "\x7d")

/-- A response error object carrying just a message. -/
def mkErrObj (m : String) : JVal :=
  JVal.obj [("message", JVal.str m)]

/-- A response whose errors list carries the given messages. -/
def mkErrResponse (msgs : List String) : JVal :=
  JVal.obj [("errors", JVal.arr (msgs.map mkErrObj))]

theorem handleOneError_plain (m : String)
    (hm : strContains m "Complexity budget exhausted" = false) :
    handleOneError (mkErrObj m) = StepRes.cont [Event.fileAppend "errors.txt" m] := by
  simp [handleOneError, mkErrObj, pyIn, pySub, dlookup, hm]

theorem handleLoop_appends (msgs : List String)
    (h : ∀ m ∈ msgs, strContains m "Complexity budget exhausted" = false) :
    ∀ acc : List Event, handleLoop (msgs.map mkErrObj) acc =
      (acc ++ msgs.map (Event.fileAppend "errors.txt"), Except.ok false) := by
  induction msgs with
  | nil => intro acc; simp [handleLoop]
  | cons m rest ih =>
    intro acc
    have hm := h m (List.mem_cons_self _ _)
    rw [List.map_cons]
    simp only [handleLoop, handleOneError_plain m hm]
    rw [ih (fun x hx => h x (List.mem_cons_of_mem _ hx)) (acc ++ [Event.fileAppend "errors.txt" m])]
    simp

theorem handle_response_errors_plain (msgs : List String)
    (h : ∀ m ∈ msgs, strContains m "Complexity budget exhausted" = false) :
    handle_response_errors (mkErrResponse msgs) =
      (msgs.map (Event.fileAppend "errors.txt"), Except.ok false) := by
  simp only [handle_response_errors, mkErrResponse, pyIn, pySub, dlookup, iterTargets]
  simpa using handleLoop_appends msgs h []

theorem sdata_append (a b : String) : (a ++ b).data = a.data ++ b.data := by
  cases a
  cases b
  rfl

theorem strip2_append (x : String) :
    String.mk ((x ++ ", ").data.dropLast.dropLast) = x := by
  cases x with
  | mk l =>
    have h1 : (String.mk l ++ ", ").data = l ++ [',', ' '] := rfl
    rw [h1]
    have h2 : l ++ [',', ' '] = (l ++ [',']) ++ [' '] := by simp
    rw [h2, List.dropLast_concat, List.dropLast_concat]

theorem strip2_length (x : String) : (x ++ ", ").data.length > 1 := by
  have h2 : (", " : String).data.length = 2 := rfl
  rw [sdata_append, List.length_append, h2]
  omega

theorem item_cv_loop_filter (columns : List (String × String)) :
    ∀ (pairs : List (String × PyVal)) (acc : String),
      item_cv_loop columns pairs acc =
        item_cv_loop columns (pairs.filter (fun p => isStrOrDict p.2)) acc := by
  intro pairs
  induction pairs with
  | nil => intro acc; rfl
  | cons p rest ih =>
    intro acc
    rcases p with ⟨t, v⟩
    cases v
    case str s =>
      cases hd : dlookup columns t
      · simp [item_cv_loop, List.filter_cons, isStrOrDict, hd]
      · simp [item_cv_loop, List.filter_cons, isStrOrDict, hd, ih]
    case dict d =>
      cases hd : dlookup columns t
      · simp [item_cv_loop, List.filter_cons, isStrOrDict, hd]
      · simp [item_cv_loop, List.filter_cons, isStrOrDict, hd, ih]
    all_goals simp [item_cv_loop, List.filter_cons, isStrOrDict, ih]

theorem pollCycle_trace (bid sc : String) (d : List (String × String)) :
    ∀ items : List PollItem,
      (∀ it ∈ items, it.columnValues ≠ []) →
      (∀ it ∈ items, unprocessed it = true → it.groupTitle ∈ keys d) →
      pollCycle bid sc d items =
        (items.flatMap (fun it => if unprocessed it = true then
          [Event.post (inProgressQuery bid it.id sc), Event.spawn it.groupTitle it.id it.name]
          else []), Except.ok ()) := by
  intro items
  induction items with
  | nil =>
    intro _ _
    rfl
  | cons it rest ih =>
    intro h1 h2
    have hcv : it.columnValues ≠ [] := h1 it (List.mem_cons_self _ _)
    obtain ⟨v, cvs, hv⟩ : ∃ v cvs, it.columnValues = v :: cvs := by
      cases hcase : it.columnValues with
      | nil => exact absurd hcase hcv
      | cons a l => exact ⟨a, l, rfl⟩
    have ihr := ih (fun x hx => h1 x (List.mem_cons_of_mem _ hx))
      (fun x hx hux => h2 x (List.mem_cons_of_mem _ hx) hux)
    have hun : unprocessed it = pyFalsy v := by
      simp only [unprocessed, hv]
    by_cases hf : pyFalsy v = true
    · have hmem : it.groupTitle ∈ keys d := h2 it (List.mem_cons_self _ _) (by rw [hun]; exact hf)
      obtain ⟨hh, hsome⟩ := dlookup_isSome_of_mem_keys d it.groupTitle hmem
      simp only [pollCycle, hv, hf, if_true, hsome, ihr, List.flatMap_cons, hun]
      simp
    · have hfb : pyFalsy v = false := by
        revert hf
        cases pyFalsy v <;> simp
      simp only [pollCycle, hv, hfb, ihr, hun, List.flatMap_cons]
      simp

/-- Claim C1. The claim says: a rate-limit message with a parsable
cool-down digit after the marker yields a wait of digit + 1 seconds, and
any rate-limit message without a parsable digit yields a wait of exactly 5
seconds. The code violates the second half: when the message contains
'reset in ' followed by a NON-digit, the unconverted one-character string
is passed to sleep itself (a TypeError at runtime), not 5 — contradicting
the source's own comment that an unidentified number of seconds defaults to
5. This theorem evaluates the code at such a failing message. -/
theorem rate_limit_nondigit_wait_bug :
    rateLimitSleepArg "Complexity budget exhausted - reset in a few seconds" =
      Except.ok (SleepArg.str "a") ∧
    handle_response_errors (JVal.obj [("errors", JVal.arr [JVal.obj [("message",
      JVal.str "Complexity budget exhausted - reset in a few seconds")]])]) =
      ([], Except.error PyErr.typeError) ∧
    SleepArg.str "a" ≠ SleepArg.int 5 := by
  refine ⟨rfl, rfl, ?_⟩
  decide

/-- Claim C2 counterexample: in a response whose errors list holds a
rate-limit error followed by the non-rate-limit message 'boom', the scan
returns at the rate-limit error, so 'boom' is never appended to the errors
file even though the query is re-submitted — refuting the claim as stated
for this response. -/
theorem error_after_rate_limit_not_logged :
    handle_response_errors (JVal.obj [("errors", JVal.arr
        [mkErrObj "Complexity budget exhausted", mkErrObj "boom"])]) =
      ([Event.sleep 5], Except.ok false) ∧
    strContains "boom" "Complexity budget exhausted" = false ∧
    Event.fileAppend "errors.txt" "boom" ∉
      (post_request 2 [JVal.obj [("errors", JVal.arr
        [mkErrObj "Complexity budget exhausted", mkErrObj "boom"])],
        JVal.obj [("data", JVal.null)]] "q").1 := by
  refine ⟨rfl, rfl, ?_⟩
  decide

/-- Claim C2, amended: for every response whose error messages all lack the
rate-limit pattern, post_request appends each error message verbatim to the
errors side-channel file, in order, and then re-submits the identical query
exactly once per pass through the retry path (the trace of the pass is the
post of the query, the appends, then exactly one recursive pass with the
same query). -/
theorem nonratelimit_errors_logged_then_single_resubmit
    (msgs : List String) (rest : List JVal) (q : String) (fuel : Nat)
    (h : ∀ m ∈ msgs, strContains m "Complexity budget exhausted" = false) :
    handle_response_errors (mkErrResponse msgs) =
      (msgs.map (Event.fileAppend "errors.txt"), Except.ok false) ∧
    post_request (fuel + 1) (mkErrResponse msgs :: rest) q =
      (Event.post q :: (msgs.map (Event.fileAppend "errors.txt") ++ (post_request fuel rest q).1),
       (post_request fuel rest q).2) := by
  have h1 := handle_response_errors_plain msgs h
  refine ⟨h1, ?_⟩
  simp only [post_request, h1]

/-- Witness for the amended claim C2 at a concrete input. -/
theorem nonratelimit_errors_logged_witness :
    (∀ m ∈ ["boom"], strContains m "Complexity budget exhausted" = false) ∧
    (handle_response_errors (mkErrResponse ["boom"]) =
      (["boom"].map (Event.fileAppend "errors.txt"), Except.ok false) ∧
    post_request (1 + 1) (mkErrResponse ["boom"] :: [JVal.obj []]) "q" =
      (Event.post "q" :: (["boom"].map (Event.fileAppend "errors.txt") ++
        (post_request 1 [JVal.obj []] "q").1),
       (post_request 1 [JVal.obj []] "q").2)) :=
  ⟨by decide, nonratelimit_errors_logged_then_single_resubmit ["boom"] [JVal.obj []] "q" 1
    (by decide)⟩

/-- Claim C3: a response with no 'errors' key makes post_request return the
'data' payload when present and None when absent, with exactly one post of
the query and no re-submission in either case. -/
theorem no_error_returns_data_without_resubmit
    (fields : List (String × JVal)) (rs : List JVal) (q : String) (fuel : Nat)
    (h : fields.any (fun p => p.1 == "errors") = false) :
    post_request (fuel + 1) (JVal.obj fields :: rs) q =
      ([Event.post q], PResult.ok (dlookup fields "data")) := by
  have hh : handle_response_errors (JVal.obj fields) = ([], Except.ok true) := by
    simp [handle_response_errors, pyIn, h]
  simp only [post_request, hh, tryData, pySub]
  cases hd : dlookup fields "data" <;> simp [hd]

/-- Witness for claim C3 at a concrete input (payload present) — the
data-absent case is the same equation with dlookup evaluating to none. -/
theorem no_error_returns_data_witness :
    (List.any [("data", JVal.str "payload")] (fun p => p.1 == "errors") = false) ∧
    post_request (0 + 1) [JVal.obj [("data", JVal.str "payload")]] "q" =
      ([Event.post "q"], PResult.ok (dlookup [("data", JVal.str "payload")] "data")) :=
  ⟨by decide, no_error_returns_data_without_resubmit [("data", JVal.str "payload")] [] "q" 0
    (by decide)⟩

/-- Claim C4: with an empty boards mapping, get_ws_id prints the report and
returns None, issuing no remote request (no post event) and no retry — it
never resolves a workspace id for an empty workspace. -/
theorem empty_workspace_reports_and_returns_none (fuel : Nat) (responses : List JVal) :
    get_ws_id [] fuel responses = ([Event.printMsg wsEmptyMsg], PResult.ok none) ∧
    ∀ e ∈ (get_ws_id [] fuel responses).1, ∀ q : String, e ≠ Event.post q := by
  refine ⟨rfl, ?_⟩
  intro e he q
  simp only [get_ws_id, List.mem_singleton] at he
  subst he
  simp

/-- Claim C5: hydrating a Board populates columns first, then groups, then
items (the definitional order of hydrateBoard), and for every payload whose
items name existing groups, the key set of the columns mapping is exactly
the payload's column titles, the key set of the groups mapping is exactly
the payload's group titles, every payload item is stored in the items
mapping of the group named in its entry, and the item names stored across
all groups are exactly the payload's item names. -/
theorem hydrate_board_orders_and_key_sets
    (cols : List JColumn) (groups : List JGroup) (items : List JItem)
    (h : ∀ it ∈ items, it.groupTitle ∈ groups.map JGroup.title) :
    hydrateBoard cols groups items =
      set_items (set_groups (set_columns emptyBoard cols) groups) items ∧
    ∃ b, hydrateBoard cols groups items = Except.ok b ∧
      (∀ t, t ∈ keys b.columns ↔ t ∈ cols.map JColumn.title) ∧
      (∀ t, t ∈ keys b.groups ↔ t ∈ groups.map JGroup.title) ∧
      (∀ it ∈ items, hasItemG b.groups it.groupTitle it.name) ∧
      (∀ n, (∃ gt, hasItemG b.groups gt n) ↔ n ∈ items.map JItem.name) := by
  refine ⟨rfl, ?_⟩
  set b0 : BoardM := set_groups (set_columns emptyBoard cols) groups with hb0
  have hkeys0 : ∀ t, t ∈ keys b0.groups ↔ t ∈ groups.map JGroup.title := by
    intro t
    rw [hb0, mem_keys_set_groups, set_columns_groups]
    simp [emptyBoard, keys]
  have hempty : ∀ p ∈ b0.groups, p.2.items = ([] : List (String × ItemM)) := by
    rw [hb0]
    apply set_groups_items_empty
    rw [set_columns_groups]
    intro p hp
    simp [emptyBoard] at hp
  have hitems : ∀ it ∈ items, it.groupTitle ∈ keys b0.groups := by
    intro it hit
    exact (hkeys0 _).mpr (h it hit)
  obtain ⟨b, hb, hcols, hkeys, hiff⟩ := set_items_spec items b0 hitems
  refine ⟨b, hb, ?_, ?_, ?_, ?_⟩
  · intro t
    rw [show b.columns = b0.columns from hcols, hb0, set_groups_columns, mem_keys_set_columns]
    simp [emptyBoard, keys]
  · intro t
    rw [show keys b.groups = keys b0.groups from hkeys]
    exact hkeys0 t
  · intro it hit
    rw [hiff it.groupTitle it.name]
    exact Or.inl ⟨it, hit, rfl, rfl⟩
  · intro n
    constructor
    · rintro ⟨gt, hgt⟩
      rw [hiff gt n] at hgt
      rcases hgt with ⟨x, hx, -, hnx⟩ | hg0
      · exact List.mem_map.mpr ⟨x, hx, hnx⟩
      · exact absurd hg0 (not_hasItemG_of_items_empty _ hempty gt n)
    · intro hn
      rcases List.mem_map.mp hn with ⟨x, hx, hxn⟩
      exact ⟨x.groupTitle, (hiff _ _).mpr (Or.inl ⟨x, hx, rfl, hxn⟩)⟩

/-- Witness for claim C5 at the spec's fixed payload: 2 columns, 3 groups,
5 items distributed across the groups. -/
theorem hydrate_board_orders_and_key_sets_witness :
    (∀ it ∈ [JItem.mk "i1" "a" "G1" [], JItem.mk "i2" "b" "G1" [], JItem.mk "i3" "c" "G2" [],
        JItem.mk "i4" "d" "G3" [], JItem.mk "i5" "e" "G3" []],
      it.groupTitle ∈ [JGroup.mk "g1" "G1", JGroup.mk "g2" "G2",
        JGroup.mk "g3" "G3"].map JGroup.title) ∧
    (hydrateBoard [JColumn.mk "c1" "Date" "date" "d1", JColumn.mk "c2" "Color" "text" "d2"]
        [JGroup.mk "g1" "G1", JGroup.mk "g2" "G2", JGroup.mk "g3" "G3"]
        [JItem.mk "i1" "a" "G1" [], JItem.mk "i2" "b" "G1" [], JItem.mk "i3" "c" "G2" [],
          JItem.mk "i4" "d" "G3" [], JItem.mk "i5" "e" "G3" []] =
      set_items (set_groups (set_columns emptyBoard
        [JColumn.mk "c1" "Date" "date" "d1", JColumn.mk "c2" "Color" "text" "d2"])
        [JGroup.mk "g1" "G1", JGroup.mk "g2" "G2", JGroup.mk "g3" "G3"])
        [JItem.mk "i1" "a" "G1" [], JItem.mk "i2" "b" "G1" [], JItem.mk "i3" "c" "G2" [],
          JItem.mk "i4" "d" "G3" [], JItem.mk "i5" "e" "G3" []] ∧
    ∃ b, hydrateBoard [JColumn.mk "c1" "Date" "date" "d1", JColumn.mk "c2" "Color" "text" "d2"]
        [JGroup.mk "g1" "G1", JGroup.mk "g2" "G2", JGroup.mk "g3" "G3"]
        [JItem.mk "i1" "a" "G1" [], JItem.mk "i2" "b" "G1" [], JItem.mk "i3" "c" "G2" [],
          JItem.mk "i4" "d" "G3" [], JItem.mk "i5" "e" "G3" []] = Except.ok b ∧
      (∀ t, t ∈ keys b.columns ↔ t ∈ [JColumn.mk "c1" "Date" "date" "d1",
        JColumn.mk "c2" "Color" "text" "d2"].map JColumn.title) ∧
      (∀ t, t ∈ keys b.groups ↔ t ∈ [JGroup.mk "g1" "G1", JGroup.mk "g2" "G2",
        JGroup.mk "g3" "G3"].map JGroup.title) ∧
      (∀ it ∈ [JItem.mk "i1" "a" "G1" [], JItem.mk "i2" "b" "G1" [], JItem.mk "i3" "c" "G2" [],
          JItem.mk "i4" "d" "G3" [], JItem.mk "i5" "e" "G3" []],
        hasItemG b.groups it.groupTitle it.name) ∧
      (∀ n, (∃ gt, hasItemG b.groups gt n) ↔ n ∈ [JItem.mk "i1" "a" "G1" [],
        JItem.mk "i2" "b" "G1" [], JItem.mk "i3" "c" "G2" [], JItem.mk "i4" "d" "G3" [],
        JItem.mk "i5" "e" "G3" []].map JItem.name)) :=
  ⟨by decide, hydrate_board_orders_and_key_sets _ _ _ (by decide)⟩

/-- Claim C6: registering two columns with the same title — through
set_columns on json columns or through add_column — leaves the later column
as the value of the shared title key (last-write-wins, under either title
name), and the title keys of the columns mapping stay unique. -/
theorem duplicate_column_title_last_write_wins
    (b : BoardM) (c1 c2 : JColumn) (col1 col2 : ColumnM)
    (hj : c1.title = c2.title) (hc : col1.title = col2.title)
    (hnd : (keys b.columns).Nodup) :
    dlookup (set_columns b [c1, c2]).columns c2.title = some (mkColumn c2) ∧
    dlookup (set_columns b [c1, c2]).columns c1.title = some (mkColumn c2) ∧
    (keys (set_columns b [c1, c2]).columns).Nodup ∧
    dlookup (add_column (add_column b col1) col2).columns col2.title = some col2 ∧
    dlookup (add_column (add_column b col1) col2).columns col1.title = some col2 ∧
    (keys (add_column (add_column b col1) col2).columns).Nodup := by
  have e1 : (set_columns b [c1, c2]).columns =
      dinsert (dinsert b.columns c1.title (mkColumn c1)) c2.title (mkColumn c2) := rfl
  have e2 : (add_column (add_column b col1) col2).columns =
      dinsert (dinsert b.columns col1.title col1) col2.title col2 := rfl
  refine ⟨?_, ?_, ?_, ?_, ?_, ?_⟩
  · rw [e1, dlookup_dinsert_self]
  · rw [e1, hj, dlookup_dinsert_self]
  · rw [e1]
    exact nodup_keys_dinsert _ _ _ (nodup_keys_dinsert _ _ _ hnd)
  · rw [e2, dlookup_dinsert_self]
  · rw [e2, hc, dlookup_dinsert_self]
  · rw [e2]
    exact nodup_keys_dinsert _ _ _ (nodup_keys_dinsert _ _ _ hnd)

/-- Witness for claim C6 at concrete columns sharing the title 'T'. -/
theorem duplicate_column_title_last_write_wins_witness :
    ((JColumn.mk "id1" "T" "text" "da").title = (JColumn.mk "id2" "T" "status" "db").title) ∧
    ((ColumnM.mk "T" "d" "text" "x1").title = (ColumnM.mk "T" "e" "status" "x2").title) ∧
    (keys emptyBoard.columns).Nodup ∧
    (dlookup (set_columns emptyBoard [JColumn.mk "id1" "T" "text" "da",
        JColumn.mk "id2" "T" "status" "db"]).columns (JColumn.mk "id2" "T" "status" "db").title =
      some (mkColumn (JColumn.mk "id2" "T" "status" "db")) ∧
    dlookup (set_columns emptyBoard [JColumn.mk "id1" "T" "text" "da",
        JColumn.mk "id2" "T" "status" "db"]).columns (JColumn.mk "id1" "T" "text" "da").title =
      some (mkColumn (JColumn.mk "id2" "T" "status" "db")) ∧
    (keys (set_columns emptyBoard [JColumn.mk "id1" "T" "text" "da",
        JColumn.mk "id2" "T" "status" "db"]).columns).Nodup ∧
    dlookup (add_column (add_column emptyBoard (ColumnM.mk "T" "d" "text" "x1"))
        (ColumnM.mk "T" "e" "status" "x2")).columns (ColumnM.mk "T" "e" "status" "x2").title =
      some (ColumnM.mk "T" "e" "status" "x2") ∧
    dlookup (add_column (add_column emptyBoard (ColumnM.mk "T" "d" "text" "x1"))
        (ColumnM.mk "T" "e" "status" "x2")).columns (ColumnM.mk "T" "d" "text" "x1").title =
      some (ColumnM.mk "T" "e" "status" "x2") ∧
    (keys (add_column (add_column emptyBoard (ColumnM.mk "T" "d" "text" "x1"))
        (ColumnM.mk "T" "e" "status" "x2")).columns).Nodup) :=
  ⟨rfl, rfl, by decide,
    duplicate_column_title_last_write_wins emptyBoard _ _ _ _ rfl rfl (by decide)⟩

/-- Claim C7: in one poll cycle over a fetched board snapshot (all items
carrying at least one column value, every unprocessed item's group having a
registered handler), an item is treated as unprocessed exactly when its
first column value is falsy — and falsy means absent (null) or the empty
string — and the cycle's trace is, per unprocessed item, the in-progress
(index 0) mutation followed by the spawn of its handler unit, with no
events at all for the other items. -/
theorem dispatcher_marks_then_spawns_unprocessed
    (bid sc : String) (d : List (String × String)) (items : List PollItem)
    (h1 : ∀ it ∈ items, it.columnValues ≠ [])
    (h2 : ∀ it ∈ items, unprocessed it = true → it.groupTitle ∈ keys d) :
    pollCycle bid sc d items =
      (items.flatMap (fun it => if unprocessed it = true then
        [Event.post (inProgressQuery bid it.id sc), Event.spawn it.groupTitle it.id it.name]
        else []), Except.ok ()) ∧
    (∀ v : Option String, pyFalsy v = true ↔ (v = none ∨ v = some "")) := by
  refine ⟨pollCycle_trace bid sc d items h1 h2, ?_⟩
  intro v
  cases v with
  | none => simp [pyFalsy]
  | some s => simp [pyFalsy]

/-- Witness for claim C7 at the spec's snapshot: 4 items, 2 with a falsy
first value and 2 with a non-empty one — exactly 2 mutation+spawn pairs. -/
theorem dispatcher_marks_then_spawns_unprocessed_witness :
    (∀ it ∈ [PollItem.mk "1" "a" "G" [none], PollItem.mk "2" "b" "G" [some ""],
        PollItem.mk "3" "c" "H" [some "x"], PollItem.mk "4" "e" "H" [some "y"]],
      it.columnValues ≠ []) ∧
    (∀ it ∈ [PollItem.mk "1" "a" "G" [none], PollItem.mk "2" "b" "G" [some ""],
        PollItem.mk "3" "c" "H" [some "x"], PollItem.mk "4" "e" "H" [some "y"]],
      unprocessed it = true → it.groupTitle ∈ keys [("G", "handler")]) ∧
    (pollCycle "7" "sc" [("G", "handler")]
        [PollItem.mk "1" "a" "G" [none], PollItem.mk "2" "b" "G" [some ""],
          PollItem.mk "3" "c" "H" [some "x"], PollItem.mk "4" "e" "H" [some "y"]] =
      ([PollItem.mk "1" "a" "G" [none], PollItem.mk "2" "b" "G" [some ""],
          PollItem.mk "3" "c" "H" [some "x"], PollItem.mk "4" "e" "H" [some "y"]].flatMap
        (fun it => if unprocessed it = true then
          [Event.post (inProgressQuery "7" it.id "sc"), Event.spawn it.groupTitle it.id it.name]
          else []), Except.ok ()) ∧
    (∀ v : Option String, pyFalsy v = true ↔ (v = none ∨ v = some ""))) :=
  ⟨by decide, by decide,
    dispatcher_marks_then_spawns_unprocessed "7" "sc" [("G", "handler")] _ (by decide) (by decide)⟩

/-- Claim C8: Analyzer.manager first invokes the bound handler with its
inputs and, only after it returns, posts the done (index 1) status
mutation; when the handler raises, the unit aborts and the completion
mutation is never posted. -/
theorem analyzer_done_mutation_only_after_handler (a : AnalyzerM) :
    analyzer_manager a (Except.ok ()) =
      ([Event.handlerCall a.inputs,
        Event.post (doneQuery a.board_id a.item_id a.status_column_id)], Except.ok ()) ∧
    (∀ e : PyErr, analyzer_manager a (Except.error e) =
      ([Event.handlerCall a.inputs], Except.error e)) ∧
    (∀ e : PyErr, Event.post (doneQuery a.board_id a.item_id a.status_column_id) ∉
      (analyzer_manager a (Except.error e)).1) := by
  refine ⟨rfl, fun e => rfl, fun e => ?_⟩
  simp [analyzer_manager]

/-- Claim C9: the claim says every Item stored in a Group's items mapping —
including items created by hydrating a Board from a detail payload — has
its group field set to the owning Group instance. The hydration path
violates this: Board.set_items passes group=item_group_title, so the stored
item's group field is the TITLE STRING, not a Group instance (every Item
method then dereferences self.group.board, which such items cannot
support). This theorem evaluates the code at a one-item payload. -/
theorem hydrated_item_group_field_is_title_string :
    hydrateBoard [] [JGroup.mk "g1" "G"] [JItem.mk "i1" "hello" "G" []] =
      Except.ok (BoardM.mk []
        [("G", GroupM.mk "G" "g1"
          [("hello", ItemM.mk (GroupArg.strv "G") "hello" "i1" [])])]) ∧
    GroupArg.strv "G" ≠ GroupArg.inst "G" := by
  exact ⟨rfl, by decide⟩

/-- Claim C10 (implicit): in the remote-creation path of Item, pairs whose
value is neither a str nor a dict are silently omitted from the serialized
column_values payload; the empty list serializes exactly to the
two-character string of an opening and closing brace; a str value is
embedded as escaped quoted text keyed by the looked-up column id; a dict
value is embedded via JSON serialization. -/
theorem create_item_column_values_serialization
    (columns : List (String × String)) (pairs : List (String × PyVal))
    (t cid s : String) (d : List (String × PyVal))
    (hs : dlookup columns t = some cid) :
    item_columns_values_json columns [] = Except.ok "\x7b\x7d" ∧
    ("\x7b\x7d" : String).length = 2 ∧
    item_columns_values_json columns pairs =
      item_columns_values_json columns (pairs.filter (fun p => isStrOrDict p.2)) ∧
    item_columns_values_json columns [(t, PyVal.str s)] =
      Except.ok ("\x7b" ++ "\\\"" ++ cid ++ "\\\": \\\"" ++ s ++ "\\\"" ++ "\x7d") ∧
    item_columns_values_json columns [(t, PyVal.dict d)] =
      Except.ok ("\x7b" ++ "\\\"" ++ cid ++ "\\\": " ++ jsonDumps (PyVal.dict d) ++ "\x7d") := by
  refine ⟨rfl, rfl, ?_, ?_, ?_⟩
  · unfold item_columns_values_json
    rw [item_cv_loop_filter]
  · unfold item_columns_values_json
    simp only [item_cv_loop, hs]
    rw [if_pos (strip2_length _), strip2_append]
  · unfold item_columns_values_json
    simp only [item_cv_loop, hs]
    rw [if_pos (strip2_length _), strip2_append]

/-- Witness for claim C10 at a concrete board column and concrete str, dict
and skipped (int) values. -/
theorem create_item_column_values_serialization_witness :
    dlookup [("Color", "c7")] "Color" = some "c7" ∧
    (item_columns_values_json [("Color", "c7")] [] = Except.ok "\x7b\x7d" ∧
    ("\x7b\x7d" : String).length = 2 ∧
    item_columns_values_json [("Color", "c7")] [("Color", PyVal.int 3)] =
      item_columns_values_json [("Color", "c7")]
        ([("Color", PyVal.int 3)].filter (fun p => isStrOrDict p.2)) ∧
    item_columns_values_json [("Color", "c7")] [("Color", PyVal.str "Blue")] =
      Except.ok ("\x7b" ++ "\\\"" ++ "c7" ++ "\\\": \\\"" ++ "Blue" ++ "\\\"" ++ "\x7d") ∧
    item_columns_values_json [("Color", "c7")] [("Color", PyVal.dict [("url", PyVal.str "x")])] =
      Except.ok ("\x7b" ++ "\\\"" ++ "c7" ++ "\\\": " ++
        jsonDumps (PyVal.dict [("url", PyVal.str "x")]) ++ "\x7d")) :=
  ⟨rfl, create_item_column_values_serialization [("Color", "c7")] [("Color", PyVal.int 3)]
    "Color" "c7" "Blue" [("url", PyVal.str "x")] rfl⟩
